import Mathlib

/- A shallow embedding of the template engine of the wrd repository
   (file src/wrd/template_manager.py).  Pure string manipulation is modeled
   by structural scanners over character lists, and the filesystem effects of
   project materialization are modeled by an explicit state record threaded
   through the phases of TemplateManager.create_project. -/

set_option autoImplicit false

namespace Wrd

/-- Render contexts are flat string-to-string mappings; Python dictionaries
are modeled as association lists in insertion order. -/
abbrev Ctx := List (String × String)

/-- Python dict lookup on an association list: matching key wins (keys are
kept unique by the insertion operation below). -/
def lookupAssoc {α : Type} : List (String × α) → String → Option α
| [], _ => none
| (k, v) :: rest, q => if k = q then some v else lookupAssoc rest q

/-- Python dict assignment d[k] = v: replaces the value of an existing key in
place, otherwise appends the new binding at the end (insertion order). -/
def dictInsert {α : Type} (k : String) (v : α) : List (String × α) → List (String × α)
| [] => [(k, v)]
| (k2, w) :: rest => if k2 = k then (k2, v) :: rest else (k2, w) :: dictInsert k v rest

/-- The empty string. -/
def emptyS : String := ""

/-- ASCII whitespace class of a Python regex space escape, which is also the
whitespace jinja2 tolerates around a variable name inside a placeholder. -/
def isPySpace (c : Char) : Bool :=
  c == ' ' || c == '\t' || c == '\n' || c == '\r' || c == '\x0b' || c == '\x0c'

/-- Newline-class characters: the line boundaries Python's splitlines
recognizes, which jinja2's lexer uses when it preprocesses the template
source. -/
def isNlChar (c : Char) : Bool :=
  c == '\n' || c == '\r' || c == '\x0b' || c == '\x0c' ||
  c == '\x1c' || c == '\x1d' || c == '\x1e' || c == '\x85' ||
  c == '\u2028' || c == '\u2029'

/-- Trailing-newline strip of jinja2 under its default
keep_trailing_newline=False: one trailing carriage-return/newline pair, or
one single trailing newline-class character, is removed from the template
source before lexing (the lexer splits the source into lines and rejoins
them, which drops a lone trailing line boundary).  Interior newline
normalization (a lone carriage return in the middle of the text is
rewritten to a newline by the same rejoin) is outside the modeled fragment;
theorems about literal text therefore carry hypotheses excluding
newline-class characters where this distinction matters. -/
def dropTrailNl : List Char → List Char
| [] => []
| c :: rest =>
  match rest with
  | [] => if isNlChar c then [] else [c]
  | r1 :: rrest =>
    if c = '\r' ∧ r1 = '\n' ∧ rrest = [] then []
    else c :: dropTrailNl rest

/-- Replacement text for a scanned variable name: its context value, or the
empty string when the name is unbound (the default Undefined of jinja2
renders as empty). -/
def substData (ctx : Ctx) (k : List Char) : List Char :=
  ((lookupAssoc ctx (String.mk k)).getD emptyS).data

/-- Failure of jinja2 template compilation, abstracted: the engine in
TemplateManager._render_template raises on malformed placeholder markup
(for example an unclosed placeholder opener). -/
inductive Rfail
| badTemplate
deriving DecidableEq

/-- Scanner state for the placeholder scan of one template string. -/
inductive ScanMode
| lit
| brace1
| preKey
| inKey (acc : List Char)
| postKey (acc : List Char)
| close1 (acc : List Char)
deriving DecidableEq

/-- Substitution scanner modelling jinja2.Template(s).render(ctx) as called by
TemplateManager._render_template, restricted to the variable-interpolation
fragment actually used by the engine: a placeholder is an opening double
brace, optional whitespace, a variable name, optional whitespace, and a
closing double brace.  A name bound in the context is replaced by its value;
an unbound name is replaced by the empty string (the default Undefined of
jinja2 renders as empty).  Malformed placeholder markup (unclosed opener,
empty name, junk between name and closer) is a rendering error, as jinja2
raises an error there.  Statement and comment delimiters of the full
jinja2 language are outside this fragment and are not modeled; theorems about
literal text therefore carry hypotheses excluding them.  The scanner runs on
the template source after the trailing-newline strip performed by render. -/
def renderLoop (ctx : Ctx) : ScanMode → List Char → Except Rfail (List Char)
| ScanMode.lit, [] => Except.ok []
| ScanMode.lit, c :: rest =>
  if c = '{' then renderLoop ctx ScanMode.brace1 rest
  else
    match renderLoop ctx ScanMode.lit rest with
    | Except.error e => Except.error e
    | Except.ok l => Except.ok (c :: l)
| ScanMode.brace1, [] => Except.ok ['{']
| ScanMode.brace1, c :: rest =>
  if c = '{' then renderLoop ctx ScanMode.preKey rest
  else
    match renderLoop ctx ScanMode.lit rest with
    | Except.error e => Except.error e
    | Except.ok l => Except.ok ('{' :: c :: l)
| ScanMode.preKey, [] => Except.error Rfail.badTemplate
| ScanMode.preKey, c :: rest =>
  if isPySpace c then renderLoop ctx ScanMode.preKey rest
  else if c = '}' then Except.error Rfail.badTemplate
  else renderLoop ctx (ScanMode.inKey [c]) rest
| ScanMode.inKey acc, [] => Except.error Rfail.badTemplate
| ScanMode.inKey acc, c :: rest =>
  if isPySpace c then renderLoop ctx (ScanMode.postKey acc) rest
  else if c = '}' then renderLoop ctx (ScanMode.close1 acc) rest
  else renderLoop ctx (ScanMode.inKey (acc ++ [c])) rest
| ScanMode.postKey acc, [] => Except.error Rfail.badTemplate
| ScanMode.postKey acc, c :: rest =>
  if isPySpace c then renderLoop ctx (ScanMode.postKey acc) rest
  else if c = '}' then renderLoop ctx (ScanMode.close1 acc) rest
  else Except.error Rfail.badTemplate
| ScanMode.close1 acc, [] => Except.error Rfail.badTemplate
| ScanMode.close1 acc, c :: rest =>
  if c = '}' then
    match renderLoop ctx ScanMode.lit rest with
    | Except.error e => Except.error e
    | Except.ok l => Except.ok (substData ctx acc ++ l)
  else Except.error Rfail.badTemplate

/-- TemplateManager._render_template: render a template string against a
context.  jinja2 first strips a single trailing newline sequence from the
template source (keep_trailing_newline defaults to false), then performs
variable interpolation, modeled by renderLoop on the stripped source. -/
def render (s : String) (ctx : Ctx) : Except Rfail String :=
  match renderLoop ctx ScanMode.lit (dropTrailNl s.data) with
  | Except.error e => Except.error e
  | Except.ok l => Except.ok (String.mk l)

/-- Scanner modelling the Python re.findall call of
TemplateManager.get_template_variables: the pattern matches an opening double
brace, optional whitespace, a nonempty run of characters that are neither
whitespace nor a closing brace (the capture), optional whitespace, and a
closing double brace.  A failed match attempt resumes scanning at the first
character that broke the attempt, which reproduces re.findall restarting the
scan one position after a failed match start (no earlier restart position can
begin a match, see the mode comments). -/
def extractLoop : ScanMode → List Char → List String
| ScanMode.lit, [] => []
| ScanMode.lit, c :: rest =>
  if c = '{' then extractLoop ScanMode.brace1 rest else extractLoop ScanMode.lit rest
| ScanMode.brace1, [] => []
| ScanMode.brace1, c :: rest =>
  if c = '{' then extractLoop ScanMode.preKey rest else extractLoop ScanMode.lit rest
| ScanMode.preKey, [] => []
| ScanMode.preKey, c :: rest =>
  if isPySpace c then extractLoop ScanMode.preKey rest
  else if c = '}' then extractLoop ScanMode.lit rest
  else extractLoop (ScanMode.inKey [c]) rest
| ScanMode.inKey acc, [] => []
| ScanMode.inKey acc, c :: rest =>
  if isPySpace c then extractLoop (ScanMode.postKey acc) rest
  else if c = '}' then extractLoop (ScanMode.close1 acc) rest
  else extractLoop (ScanMode.inKey (acc ++ [c])) rest
| ScanMode.postKey acc, [] => []
| ScanMode.postKey acc, c :: rest =>
  if isPySpace c then extractLoop (ScanMode.postKey acc) rest
  else if c = '}' then extractLoop (ScanMode.close1 acc) rest
  else if c = '{' then extractLoop ScanMode.brace1 rest
  else extractLoop ScanMode.lit rest
| ScanMode.close1 acc, [] => []
| ScanMode.close1 acc, c :: rest =>
  if c = '}' then String.mk acc :: extractLoop ScanMode.lit rest
  else if c = '{' then extractLoop ScanMode.brace1 rest
  else extractLoop ScanMode.lit rest

/-- Placeholder names occurring in a string, in match order, as found by the
regular expression scan of TemplateManager.get_template_variables. -/
def extractVars (s : String) : List String := extractLoop ScanMode.lit s.data

/-- Character starting a jinja2 delimiter when it follows an opening
brace. -/
def opensDelim (d : Char) : Bool := d == '{' || d == '%' || d == '#'

/-- Character-list predicate: the text contains no opening jinja2 delimiter
(a brace immediately followed by a brace, a percent sign or a hash); such
text is rendered literally by jinja2. -/
def delimFree : List Char → Bool
| [] => true
| c :: rest =>
  if c = '{' then
    match rest with
    | [] => true
    | d :: _ => if opensDelim d then false else delimFree rest
  else delimFree rest

/-- One entry of the files list of a template manifest, as the source reads
it with dict.get: the optional keys path, source, content and template.
Absent keys are None; present keys hold strings. -/
structure FileSpec where
  path : Option String := none
  source : Option String := none
  content : Option String := none
  template : Option String := none
deriving DecidableEq

/-- An element of the manifest files list: create_project skips entries that
are not dictionaries (isinstance check), so an entry is either a non-dict
value or a FileSpec. -/
inductive FileEntry
| nonDict
| spec (f : FileSpec)
deriving DecidableEq

/-- The manifest fields of a template that create_project and
get_template_variables read; unknown manifest fields are ignored by the
source and are not modeled. -/
structure Config where
  directories : List String := []
  files : List FileEntry := []
  post_create_commands : List String := []
deriving DecidableEq

/-- One catalog entry: the parsed manifest together with the template
directory, the latter modeled by the readable asset files it contains
(file name to file text). -/
structure Template where
  config : Config
  templateFiles : List (String × String) := []
deriving DecidableEq

/-- State of the destination directory: whether it exists, the directories
created beneath it, and its files as a path-to-contents map.  Parent
directories implicitly created for a file path are not tracked; no claim
mentions them. -/
structure FS where
  destExists : Bool := false
  dirs : List String := []
  files : List (String × String) := []
deriving DecidableEq

/-- Error taxonomy of create_project: ValueError for a missing template,
FileExistsError for an existing destination without overwrite, and a
propagated rendering failure (the per-file try block prints and re-raises
the same exception, so the original rendering error is what the caller
sees). -/
inductive CPError
| templateNotFound (name : String)
| destinationConflict
| renderFailure (e : Rfail)
deriving DecidableEq

/-- Path.write_text: writes the file, truncating any previous contents. -/
def setFile (p c : String) : List (String × String) → List (String × String)
| [] => [(p, c)]
| (q, d) :: rest => if q = p then (p, c) :: rest else (q, d) :: setFile p c rest

/-- Path.touch: creates an empty file if absent, otherwise leaves the
existing contents in place (touch does not truncate). -/
def touchFile (p : String) (fs : FS) : FS :=
  match lookupAssoc fs.files p with
  | some _ => fs
  | none => { fs with files := fs.files ++ [(p, emptyS)] }

/-- Path.mkdir with parents and exist_ok: idempotent directory creation. -/
def addDir (d : String) (fs : FS) : FS :=
  if d ∈ fs.dirs then fs else { fs with dirs := fs.dirs ++ [d] }

/-- Destination handling of create_project: an existing destination with
overwrite false raises FileExistsError (the source never checks whether the
directory is empty); a missing destination is created with parents. -/
def checkDest (dest : FS) (overwrite : Bool) : Except (CPError × FS) FS :=
  if dest.destExists then
    if overwrite then Except.ok dest
    else Except.error (CPError.destinationConflict, dest)
  else Except.ok { dest with destExists := true }

/-- Directory pre-creation loop of create_project: each entry of the
directories list is rendered and created; a rendering failure propagates
(there is no try block around this loop). -/
def processDirs (ctx : Ctx) : List String → FS → Except (CPError × FS) FS
| [], st => Except.ok st
| d :: rest, st =>
  match render d ctx with
  | Except.error e => Except.error (CPError.renderFailure e, st)
  | Except.ok rd => processDirs ctx rest (addDir rd st)

/-- Effective destination path of a file spec, following the source line
file_path = file_spec.get(path) or file_spec.get(source) followed by the
falsy check: an absent or empty path falls back to source, and an absent or
empty result skips the entry. -/
def pathOrSource (f : FileSpec) : Option String :=
  let fromSource :=
    match f.source with
    | some s => if s = emptyS then none else some s
    | none => none
  match f.path with
  | some p => if p = emptyS then fromSource else some p
  | none => fromSource

/-- Materialization of one files-list entry by create_project: non-dict
entries and entries without a usable path are skipped; otherwise the path is
rendered, then inline content (checked against None, so an empty string
still counts) is rendered and written, else a truthy template reference is
read from the template directory and rendered (a missing referenced file
falls back to touching an empty file), else an empty file is touched.  Any
rendering failure is re-raised by the try block and aborts the operation
with the state unchanged for this entry. -/
def processFile (ctx : Ctx) (tfiles : List (String × String)) (entry : FileEntry) (st : FS) :
    Except (CPError × FS) FS :=
  match entry with
  | FileEntry.nonDict => Except.ok st
  | FileEntry.spec f =>
    match pathOrSource f with
    | none => Except.ok st
    | some p0 =>
      match render p0 ctx with
      | Except.error e => Except.error (CPError.renderFailure e, st)
      | Except.ok p =>
        match f.content with
        | some c =>
          match render c ctx with
          | Except.error e => Except.error (CPError.renderFailure e, st)
          | Except.ok rc => Except.ok { st with files := setFile p rc st.files }
        | none =>
          match f.template with
          | some t =>
            if t = emptyS then Except.ok (touchFile p st)
            else
              match lookupAssoc tfiles t with
              | some text =>
                match render text ctx with
                | Except.error e => Except.error (CPError.renderFailure e, st)
                | Except.ok rc => Except.ok { st with files := setFile p rc st.files }
              | none => Except.ok (touchFile p st)
          | none => Except.ok (touchFile p st)

/-- File materialization loop of create_project, in manifest order,
fail-fast: the first failing entry aborts with the state accumulated so
far. -/
def processFiles (ctx : Ctx) (tfiles : List (String × String)) :
    List FileEntry → FS → Except (CPError × FS) FS
| [], st => Except.ok st
| entry :: rest, st =>
  match processFile ctx tfiles entry st with
  | Except.error e => Except.error e
  | Except.ok st2 => processFiles ctx tfiles rest st2

/-- Post-create command loop of create_project: each command is rendered (a
rendering failure propagates) and executed through os.system, whose exit
status is ignored, so a failing command neither fails the call nor changes
the modeled state.  The exit status oracle stands for the ambient shell. -/
def runCommands (exits : String → Int) (ctx : Ctx) : List String → FS → Except (CPError × FS) FS
| [], st => Except.ok st
| c :: rest, st =>
  match render c ctx with
  | Except.error e => Except.error (CPError.renderFailure e, st)
  | Except.ok rc =>
    let _ := exits rc
    runCommands exits ctx rest st

/-- Body of TemplateManager.create_project after the catalog lookup:
destination check, directory pre-creation, file materialization, post-create
commands, in source order. -/
def createFromTemplate (exits : String → Int) (tmpl : Template) (dest : FS) (ctx : Ctx)
    (overwrite : Bool) : Except (CPError × FS) FS :=
  match checkDest dest overwrite with
  | Except.error e => Except.error e
  | Except.ok st1 =>
    match processDirs ctx tmpl.config.directories st1 with
    | Except.error e => Except.error e
    | Except.ok st2 =>
      match processFiles ctx tmpl.templateFiles tmpl.config.files st2 with
      | Except.error e => Except.error e
      | Except.ok st3 => runCommands exits ctx tmpl.config.post_create_commands st3

/-- TemplateManager.create_project: look up the template in the catalog
(ValueError when absent, before any work), then materialize.  The returned
state on success is the final destination; the state carried by an error is
the destination as it stood when the operation aborted. -/
def create_project (exits : String → Int) (catalog : List (String × Template)) (name : String)
    (dest : FS) (ctx : Ctx) (overwrite : Bool) : Except (CPError × FS) FS :=
  match lookupAssoc catalog name with
  | none => Except.error (CPError.templateNotFound name, dest)
  | some tmpl => createFromTemplate exits tmpl dest ctx overwrite

/-- Parse outcome of one candidate template directory manifest, as the
source distinguishes them: the manifest file may be absent (the directory is
silently skipped), fail to parse (yaml.YAMLError, caught and logged), parse
to a non-mapping value (the subscript config of name then raises TypeError,
which the except clause does not catch), or parse to a mapping with or
without a name field (a missing name raises KeyError, which is caught). -/
inductive Manifest
| absent
| parseError
| nonMapping
| mapping (name : Option String)
deriving DecidableEq

/-- One immediate child of the templates directory, as seen by the
discovery scan. -/
structure TemplateDir where
  dirName : String
  isDir : Bool
  manifest : Manifest
deriving DecidableEq

/-- Error escaping the discovery scan: the TypeError raised by subscripting
a non-mapping manifest value, which the except clause (yaml.YAMLError,
KeyError) does not catch. -/
inductive DiscoverErr
| typeError
deriving DecidableEq

/-- Discovery loop of TemplateManager._discover_templates over the children
of the templates directory, accumulating the catalog dict keyed by the
manifest name field; the dict value is abstracted to the directory name. -/
def discoverAux (acc : List (String × String)) :
    List TemplateDir → Except DiscoverErr (List (String × String))
| [] => Except.ok acc
| e :: rest =>
  if e.isDir then
    match e.manifest with
    | Manifest.absent => discoverAux acc rest
    | Manifest.parseError => discoverAux acc rest
    | Manifest.nonMapping => Except.error DiscoverErr.typeError
    | Manifest.mapping none => discoverAux acc rest
    | Manifest.mapping (some n) => discoverAux (dictInsert n e.dirName acc) rest
  else discoverAux acc rest

/-- TemplateManager._discover_templates: scan all children, starting from an
empty catalog. -/
def discover_templates (entries : List TemplateDir) : Except DiscoverErr (List (String × String)) :=
  discoverAux [] entries

/-- TemplateManager.list_templates: the keys of the catalog dict, in
insertion order. -/
def list_templates {α : Type} (catalog : List (String × α)) : List String :=
  catalog.map Prod.fst

/-- Name extracted from a valid template child: a directory whose manifest
is a mapping carrying a name. -/
def validName (e : TemplateDir) : Option String :=
  if e.isDir then
    match e.manifest with
    | Manifest.mapping (some n) => some n
    | _ => none
  else none

/-- Names of the valid template children, in scan order. -/
def validNames (entries : List TemplateDir) : List String :=
  entries.filterMap validName

/-- Catalog pairs contributed by the valid template children, in scan
order. -/
def validPairs (entries : List TemplateDir) : List (String × String) :=
  entries.filterMap (fun e =>
    match validName e with
    | some n => some (n, e.dirName)
    | none => none)

/-- Content that get_template_variables scans for one file spec: the
content field defaulted to the empty string, overridden by the text of the
referenced template file when the template field is truthy and the file
exists on disk (the opposite priority of create_project, which prefers
inline content). -/
def scannedContent (tfiles : List (String × String)) (f : FileSpec) : String :=
  let base := f.content.getD emptyS
  match f.template with
  | none => base
  | some t =>
    if t = emptyS then base
    else
      match lookupAssoc tfiles t with
      | some text => text
      | none => base

/-- Placeholder names contributed by one files-list entry to
get_template_variables: non-dict entries contribute nothing. -/
def specVars (tfiles : List (String × String)) (entry : FileEntry) : List String :=
  match entry with
  | FileEntry.nonDict => []
  | FileEntry.spec f => extractVars (scannedContent tfiles f)

/-- All placeholder names found across the files list, in scan order, with
duplicates. -/
def allVars (t : Template) : List String :=
  (t.config.files.map (specVars t.templateFiles)).flatten

/-- First-occurrence deduplication, modelling the Python set that collects
the variables (the set determines membership; order is irrelevant to the
claims, which are stated up to membership). -/
def dedupAux (seen : List String) : List String → List String
| [] => []
| x :: rest => if x ∈ seen then dedupAux seen rest else x :: dedupAux (x :: seen) rest

/-- Variable set of one template, each name mapped to the empty default, as
built by the final dict comprehension of get_template_variables. -/
def templateVariables (t : Template) : List (String × String) :=
  (dedupAux [] (allVars t)).map (fun v => (v, emptyS))

/-- TemplateManager.get_template_variables: look up the template by name (an
unknown name yields the empty dict) and collect the placeholder names of its
file specs. -/
def get_template_variables (catalog : List (String × Template)) (name : String) :
    List (String × String) :=
  match lookupAssoc catalog name with
  | none => []
  | some t => templateVariables t

theorem strMk_data (s : String) : String.mk s.data = s := by
  cases s
  rfl

/-- On a list with at least two remaining characters that do not form the
final carriage-return/newline pair, the strip keeps the head and recurses. -/
theorem dropTrailNl_cons_cons (c r1 : Char) (rrest : List Char)
    (hpair : ¬ (c = '\r' ∧ r1 = '\n' ∧ rrest = [])) :
    dropTrailNl (c :: r1 :: rrest) = c :: dropTrailNl (r1 :: rrest) := by
  simp only [dropTrailNl, if_neg hpair]

/-- Text free of newline-class characters is unaffected by the
trailing-newline strip. -/
theorem dropTrailNl_nlFree :
    (l : List Char) → (∀ c ∈ l, isNlChar c = false) → dropTrailNl l = l
| [], _ => rfl
| c :: rest, h => by
  cases rest with
  | nil => simp [dropTrailNl, h c (by simp)]
  | cons r1 rrest =>
    have hr1 : isNlChar r1 = false := h r1 (by simp)
    have hpair : ¬ (c = '\r' ∧ r1 = '\n' ∧ rrest = []) := by
      rintro ⟨h1, h2, h3⟩
      subst h2
      exact absurd hr1 (by decide)
    have ih := dropTrailNl_nlFree (r1 :: rrest) (fun x hx => h x (by simp at hx ⊢; tauto))
    rw [dropTrailNl_cons_cons c r1 rrest hpair, ih]

/-- Delimiter-free text renders literally: the scanner copies it through
unchanged. -/
theorem renderLoop_text (ctx : Ctx) :
    (l : List Char) → delimFree l = true → renderLoop ctx ScanMode.lit l = Except.ok l
| [], _ => rfl
| c :: l, h => by
  by_cases hc : c = '{'
  · subst hc
    cases l with
    | nil => rfl
    | cons d l2 =>
      have hd : opensDelim d = false ∧ delimFree (d :: l2) = true := by
        simpa [delimFree] using h
      have hd1 : ¬ d = '{' := by
        intro he
        subst he
        exact absurd hd.1 (by decide)
      have hl2 : delimFree l2 = true := by
        have h2 := hd.2
        simpa [delimFree, hd1] using h2
      have ih := renderLoop_text ctx l2 hl2
      simp only [renderLoop, if_pos rfl, if_neg hd1, ih]
      simp
  · have h2 : delimFree l = true := by simpa [delimFree, hc] using h
    have ih := renderLoop_text ctx l h2
    simp only [renderLoop, if_neg hc, ih]

/-- The file loop splits over list concatenation: the second half runs from
the state the first half produced, and an error in the first half is the
error of the whole loop. -/
theorem processFiles_append (ctx : Ctx) (tfiles : List (String × String)) :
    (l1 l2 : List FileEntry) → (st : FS) →
    processFiles ctx tfiles (l1 ++ l2) st =
      (match processFiles ctx tfiles l1 st with
       | Except.error e => Except.error e
       | Except.ok st1 => processFiles ctx tfiles l2 st1)
| [], l2, st => rfl
| entry :: l1, l2, st => by
  show processFiles ctx tfiles (entry :: (l1 ++ l2)) st = _
  simp only [processFiles]
  cases hp : processFile ctx tfiles entry st with
  | error e => rfl
  | ok st2 => exact processFiles_append ctx tfiles l1 l2 st2

/-- A failing file entry aborts with the state it was given: nothing written
for earlier entries is removed, and nothing of the failing entry is
written. -/
theorem processFile_error_state (ctx : Ctx) (tfiles : List (String × String))
    (entry : FileEntry) (st : FS) (e : CPError) (st2 : FS)
    (h : processFile ctx tfiles entry st = Except.error (e, st2)) : st2 = st := by
  cases entry with
  | nonDict => exact absurd h (by simp [processFile])
  | spec f =>
    simp only [processFile] at h
    repeat' split at h
    all_goals simp_all

/-- An entry without a usable destination path is skipped: the state passes
through unchanged. -/
theorem processFile_skip (ctx : Ctx) (tfiles : List (String × String)) (f : FileSpec)
    (st : FS) (h : pathOrSource f = none) :
    processFile ctx tfiles (FileEntry.spec f) st = Except.ok st := by
  simp [processFile, h]

/-- The command loop never changes the modeled filesystem state: on success
it returns its input state. -/
theorem runCommands_state (exits : String → Int) (ctx : Ctx) :
    (cs : List String) → (st : FS) → (r : FS) →
    runCommands exits ctx cs st = Except.ok r → r = st
| [], st, r, h => by simpa [runCommands] using h.symm
| c :: cs, st, r, h => by
  simp only [runCommands] at h
  cases hr : render c ctx with
  | error e => rw [hr] at h; exact absurd h (by simp)
  | ok rc =>
    rw [hr] at h
    exact runCommands_state exits ctx cs st r h

/-- The command loop ignores the exit status oracle entirely (os.system's
return value is discarded by the source). -/
theorem runCommands_exits_irrel (e1 e2 : String → Int) (ctx : Ctx) :
    (cs : List String) → (st : FS) →
    runCommands e1 ctx cs st = runCommands e2 ctx cs st
| [], st => rfl
| c :: cs, st => by
  simp only [runCommands]
  cases hr : render c ctx with
  | error e => rfl
  | ok rc => exact runCommands_exits_irrel e1 e2 ctx cs st

/-- create_project does not depend on the exit statuses of post-create
commands. -/
theorem create_project_exits_irrel (e1 e2 : String → Int)
    (catalog : List (String × Template)) (name : String) (dest : FS) (ctx : Ctx)
    (overwrite : Bool) :
    create_project e1 catalog name dest ctx overwrite =
      create_project e2 catalog name dest ctx overwrite := by
  simp only [create_project]
  cases hl : lookupAssoc catalog name with
  | none => rfl
  | some tmpl =>
    simp only [createFromTemplate]
    cases h1 : checkDest dest overwrite with
    | error e => rfl
    | ok st1 =>
      simp only []
      cases h2 : processDirs ctx tmpl.config.directories st1 with
      | error e => rfl
      | ok st2 =>
        simp only []
        cases h3 : processFiles ctx tmpl.templateFiles tmpl.config.files st2 with
        | error e => rfl
        | ok st3 =>
          simp only []
          exact runCommands_exits_irrel e1 e2 ctx tmpl.config.post_create_commands st3

/-- create_project on an existing destination without overwrite: the lookup
succeeds and then the existence check raises, leaving the destination
untouched. -/
theorem create_project_conflict (exits : String → Int) (catalog : List (String × Template))
    (name : String) (tmpl : Template) (dest : FS) (ctx : Ctx)
    (hlook : lookupAssoc catalog name = some tmpl) (hex : dest.destExists = true) :
    create_project exits catalog name dest ctx false =
      Except.error (CPError.destinationConflict, dest) := by
  simp [create_project, hlook, createFromTemplate, checkDest, hex]

/-- Keys of an association list. -/
def keysOf {α : Type} (l : List (String × α)) : List String := l.map Prod.fst

/-- Inserting a fresh key appends the binding at the end. -/
theorem dictInsert_notMem {α : Type} (k : String) (v : α) :
    (l : List (String × α)) → k ∉ keysOf l → dictInsert k v l = l ++ [(k, v)]
| [], _ => rfl
| (k2, w) :: l, h => by
  have hk2 : ¬ k2 = k := by
    intro he
    exact h (by simp [keysOf, he])
  have h2 : k ∉ keysOf l := by
    intro hm
    exact h (by simp [keysOf] at hm ⊢; exact Or.inr hm)
  simp only [dictInsert, if_neg hk2, dictInsert_notMem k v l h2, List.cons_append]

/-- Discovery over children whose valid names are fresh and mutually
distinct appends exactly the valid pairs to the accumulator, provided no
manifest parses to a non-mapping value (which would crash the scan). -/
theorem discoverAux_ok :
    (entries : List TemplateDir) → (acc : List (String × String)) →
    (∀ e ∈ entries, e.isDir = true → e.manifest ≠ Manifest.nonMapping) →
    (validNames entries).Nodup →
    (∀ n ∈ validNames entries, n ∉ keysOf acc) →
    discoverAux acc entries = Except.ok (acc ++ validPairs entries)
| [], acc, _, _, _ => by simp [discoverAux, validPairs]
| e :: entries, acc, hnm, hnd, hfresh => by
  by_cases hdir : e.isDir = true
  · cases hman : e.manifest with
    | absent =>
      have hv : validName e = none := by simp [validName, hdir, hman]
      have hn : validNames (e :: entries) = validNames entries := by
        simp [validNames, hv]
      have hp : validPairs (e :: entries) = validPairs entries := by
        simp [validPairs, hv]
      rw [hn] at hnd hfresh
      simp only [discoverAux, if_pos hdir, hman, hp]
      exact discoverAux_ok entries acc (fun x hx => hnm x (by simp [hx])) hnd hfresh
    | parseError =>
      have hv : validName e = none := by simp [validName, hdir, hman]
      have hn : validNames (e :: entries) = validNames entries := by
        simp [validNames, hv]
      have hp : validPairs (e :: entries) = validPairs entries := by
        simp [validPairs, hv]
      rw [hn] at hnd hfresh
      simp only [discoverAux, if_pos hdir, hman, hp]
      exact discoverAux_ok entries acc (fun x hx => hnm x (by simp [hx])) hnd hfresh
    | nonMapping => exact absurd hman (hnm e (by simp) hdir)
    | mapping oname =>
      cases oname with
      | none =>
        have hv : validName e = none := by simp [validName, hdir, hman]
        have hn : validNames (e :: entries) = validNames entries := by
          simp [validNames, hv]
        have hp : validPairs (e :: entries) = validPairs entries := by
          simp [validPairs, hv]
        rw [hn] at hnd hfresh
        simp only [discoverAux, if_pos hdir, hman, hp]
        exact discoverAux_ok entries acc (fun x hx => hnm x (by simp [hx])) hnd hfresh
      | some n =>
        have hv : validName e = some n := by simp [validName, hdir, hman]
        have hn : validNames (e :: entries) = n :: validNames entries := by
          simp [validNames, hv]
        have hp : validPairs (e :: entries) = (n, e.dirName) :: validPairs entries := by
          simp [validPairs, hv]
        rw [hn] at hnd hfresh
        have hnotin : n ∉ validNames entries := by
          have := List.nodup_cons.mp hnd
          exact this.1
        have hnd2 : (validNames entries).Nodup := (List.nodup_cons.mp hnd).2
        have hins : dictInsert n e.dirName acc = acc ++ [(n, e.dirName)] :=
          dictInsert_notMem n e.dirName acc (hfresh n (by simp))
        have hfresh2 : ∀ m ∈ validNames entries, m ∉ keysOf (acc ++ [(n, e.dirName)]) := by
          intro m hm
          have hm1 : m ∉ keysOf acc := hfresh m (by simp [hm])
          have hm2 : ¬ m = n := by
            intro he
            subst he
            exact hnotin hm
          simp [keysOf] at hm1 ⊢
          exact ⟨hm1, hm2⟩
        simp only [discoverAux, if_pos hdir, hman, hins, hp]
        rw [discoverAux_ok entries (acc ++ [(n, e.dirName)])
          (fun x hx => hnm x (by simp [hx])) hnd2 hfresh2]
        simp
  · have hdir2 : e.isDir = false := by
      cases hq : e.isDir
      · rfl
      · exact absurd hq hdir
    have hv : validName e = none := by simp [validName, hdir2]
    have hn : validNames (e :: entries) = validNames entries := by
      simp [validNames, hv]
    have hp : validPairs (e :: entries) = validPairs entries := by
      simp [validPairs, hv]
    rw [hn] at hnd hfresh
    simp only [discoverAux, hdir2, hp]
    simp only [Bool.false_eq_true, if_false]
    exact discoverAux_ok entries acc (fun x hx => hnm x (by simp [hx])) hnd hfresh

/-- The catalog keys contributed by the valid children are exactly their
names, in order. -/
theorem keysOf_validPairs :
    (entries : List TemplateDir) → keysOf (validPairs entries) = validNames entries
| [] => rfl
| e :: entries => by
  cases hv : validName e with
  | none =>
    have h1 : validPairs (e :: entries) = validPairs entries := by
      simp [validPairs, hv]
    have h2 : validNames (e :: entries) = validNames entries := by
      simp [validNames, hv]
    rw [h1, h2, keysOf_validPairs entries]
  | some n =>
    have h1 : validPairs (e :: entries) = (n, e.dirName) :: validPairs entries := by
      simp [validPairs, hv]
    have h2 : validNames (e :: entries) = n :: validNames entries := by
      simp [validNames, hv]
    rw [h1, h2]
    have ih := keysOf_validPairs entries
    simp only [keysOf, List.map_cons] at ih ⊢
    rw [ih]

/-- Membership in the first-occurrence deduplication: an element is kept
exactly when it occurs in the list and is not among the already-seen
elements. -/
theorem mem_dedupAux (v : String) :
    (l : List String) → (seen : List String) →
    (v ∈ dedupAux seen l ↔ v ∈ l ∧ v ∉ seen)
| [], seen => by simp [dedupAux]
| x :: l, seen => by
  by_cases hx : x ∈ seen
  · simp only [dedupAux, if_pos hx]
    rw [mem_dedupAux v l seen]
    constructor
    · intro h
      exact ⟨by simp [h.1], h.2⟩
    · intro h
      rcases h with ⟨h1, h2⟩
      rcases List.mem_cons.mp h1 with he | hm
      · subst he
        exact absurd hx h2
      · exact ⟨hm, h2⟩
  · simp only [dedupAux, if_neg hx]
    constructor
    · intro h
      rcases List.mem_cons.mp h with he | hm
      · subst he
        exact ⟨by simp, hx⟩
      · have := (mem_dedupAux v l (x :: seen)).mp hm
        refine ⟨by simp [this.1], ?_⟩
        intro hs
        exact this.2 (by simp [hs])
    · intro h
      rcases h with ⟨h1, h2⟩
      rcases List.mem_cons.mp h1 with he | hm
      · subst he
        simp
      · by_cases hvx : v = x
        · subst hvx
          simp
        · have : v ∈ dedupAux (x :: seen) l := by
            rw [mem_dedupAux v l (x :: seen)]
            refine ⟨hm, ?_⟩
            intro hs
            rcases List.mem_cons.mp hs with he | hs2
            · exact hvx he
            · exact h2 hs2
          simp [this]

/-- A name is collected by get_template_variables exactly when some file
spec's scanned content contains it. -/
theorem mem_allVars (t : Template) (v : String) :
    v ∈ allVars t ↔
      ∃ f : FileSpec, FileEntry.spec f ∈ t.config.files ∧
        v ∈ extractVars (scannedContent t.templateFiles f) := by
  unfold allVars
  rw [List.mem_flatten]
  constructor
  · rintro ⟨l, hl, hv⟩
    rcases List.mem_map.mp hl with ⟨entry, hentry, he⟩
    cases entry with
    | nonDict => rw [← he] at hv; simp [specVars] at hv
    | spec f =>
      refine ⟨f, hentry, ?_⟩
      rw [← he] at hv
      simpa [specVars] using hv
  · rintro ⟨f, hf, hv⟩
    exact ⟨specVars t.templateFiles (FileEntry.spec f),
      List.mem_map_of_mem _ hf, by simpa [specVars] using hv⟩

/- Concrete fixtures used by the counterexamples and witnesses below.  All
string literals are routed through named constants. -/

def strX : String := "x"
def strY : String := "y"
def strA : String := "a"
def strB : String := "b"
def resAB : String := "a-b"
def tplXY : String := "\x7b\x7bx\x7d\x7d-\x7b\x7by\x7d\x7d"
def noVarsStr : String := "no vars here"
def ctxXY : Ctx := [(strX, strA), (strY, strB)]

def tName : String := "python-basic"
def badName : String := "nonexistent"
def cmdStr : String := "echo done"
def readmePath : String := "README.md"
def readmeTpl : String := "# \x7b\x7bproject\x7d\x7d"
def projKey : String := "project"
def projVal : String := "demo"
def readmeOut : String := "# demo"
def ctxDemo : Ctx := [(projKey, projVal)]

def demoTemplate : Template :=
  { config :=
    { files := [FileEntry.spec { path := some readmePath, content := some readmeTpl }],
      post_create_commands := [cmdStr] } }

def demoCatalog : List (String × Template) := [(tName, demoTemplate)]

def emptyDest : FS := {}
def existingEmptyDest : FS := { destExists := true }
def preFile : String := "keep.txt"
def preContent : String := "precious"
def existingFullDest : FS := { destExists := true, files := [(preFile, preContent)] }
def hiStr : String := "hi"
def pathA : String := "a.txt"
def pathB : String := "b.txt"
def destC4 : FS := { destExists := true, files := [(preFile, preContent), (pathA, hiStr)] }

def exitsZero : String → Int := fun _ => 0
def exitsOne : String → Int := fun _ => 1

def finDemo : FS := { destExists := true, dirs := [], files := [(readmePath, readmeOut)] }

def tplHello : String := "hello \x7b\x7bx\x7d\x7d"
def tplBroken : String := "\x7b\x7boops"
def helloOut : String := "hello 1"
def oneStr : String := "1"
def ctxX1 : Ctx := [(strX, oneStr)]
def specA : FileEntry := FileEntry.spec { path := some pathA, content := some tplHello }
def specB : FileEntry := FileEntry.spec { path := some pathB, content := some tplBroken }
def failTemplate : Template := { config := { files := [specA, specB] } }
def failCatalog : List (String × Template) := [(tName, failTemplate)]
def stMid2 : FS := { destExists := true, dirs := [], files := [(pathA, helloOut)] }

def srcOnlySpec : FileSpec := { source := some pathA, content := some hiStr }
def srcTemplate : Template := { config := { files := [FileEntry.spec srcOnlySpec] } }
def srcCatalog : List (String × Template) := [(tName, srcTemplate)]
def noPathSpec : FileSpec := { content := some hiStr }
def plainB : FileEntry := FileEntry.spec { path := some pathB, content := some hiStr }

def dirOne : String := "d1"
def dirTwo : String := "d2"
def dirThree : String := "d3"
def dirFour : String := "d4"
def dirFive : String := "d5"
def fileSix : String := "f6"
def dupEntries : List TemplateDir :=
  [⟨dirOne, true, Manifest.mapping (some strA)⟩, ⟨dirTwo, true, Manifest.mapping (some strA)⟩]
def wEntries : List TemplateDir :=
  [⟨dirOne, true, Manifest.mapping (some strA)⟩,
   ⟨dirTwo, true, Manifest.parseError⟩,
   ⟨dirThree, true, Manifest.absent⟩,
   ⟨dirFour, true, Manifest.mapping none⟩,
   ⟨dirFive, true, Manifest.mapping (some strB)⟩,
   ⟨fileSix, false, Manifest.mapping (some strX)⟩]

def tVarsName : String := "tvars"
def tFileName : String := "t.txt"
def inlineA : String := "\x7b\x7ba\x7d\x7d"
def fileB : String := "\x7b\x7bb\x7d\x7d"
def dualSpec : FileSpec := { content := some inlineA, template := some tFileName }
def dualTemplate : Template :=
  { config := { files := [FileEntry.spec dualSpec] }, templateFiles := [(tFileName, fileB)] }
def dualCatalog : List (String × Template) := [(tVarsName, dualTemplate)]

/-- Effective content of a file spec as the specification words it (section
3 of the spec): exactly one content source, resolved in priority order
inline content, then referenced template file, then empty.  This definition
follows the spec, not the source, and exists to be compared with
scannedContent. -/
def specEffectiveContent (tfiles : List (String × String)) (f : FileSpec) : String :=
  match f.content with
  | some c => c
  | none =>
    match f.template with
    | some t => (lookupAssoc tfiles t).getD emptyS
    | none => emptyS

def noVarsNl : String := "no vars here\n"

/-- Claim C1 (corrected): for a template present in the catalog and a
destination directory that exists and is empty, create_project with
overwrite false does not proceed; it fails with the destination conflict
error and the destination is returned untouched.  The source raises
FileExistsError for every existing destination without checking emptiness,
so materialization proceeds only into a nonexistent destination (which is
created) or with overwrite true. -/
theorem claim1_theorem (exits : String → Int) (catalog : List (String × Template))
    (name : String) (tmpl : Template) (dest : FS) (ctx : Ctx)
    (hlook : lookupAssoc catalog name = some tmpl) (hex : dest.destExists = true) :
    create_project exits catalog name dest ctx false =
      Except.error (CPError.destinationConflict, dest) :=
  create_project_conflict exits catalog name tmpl dest ctx hlook hex

/-- Claim C1 counterexample: a concrete catalog with the template present
and a concrete destination that exists and is empty, where create_project
with overwrite false fails with the destination conflict error instead of
proceeding, refuting the claim as stated. -/
theorem claim1_counterexample :
    existingEmptyDest.files = [] ∧ existingEmptyDest.destExists = true ∧
    lookupAssoc demoCatalog tName = some demoTemplate ∧
    create_project exitsZero demoCatalog tName existingEmptyDest ctxDemo false =
      Except.error (CPError.destinationConflict, existingEmptyDest) :=
  ⟨rfl, rfl, rfl, rfl⟩

/-- Claim C1 witness: the amended theorem applied at a concrete existing
destination. -/
theorem claim1_witness :
    create_project exitsOne demoCatalog tName existingFullDest ctxDemo false =
      Except.error (CPError.destinationConflict, existingFullDest) :=
  claim1_theorem exitsOne demoCatalog tName demoTemplate existingFullDest ctxDemo rfl rfl

/-- Claim C4 (confirmed): for every existing non-empty destination with
overwrite false, create_project fails with the destination conflict error
and the error carries the destination state exactly as it was given: no
file is written or touched before the failure. -/
theorem claim4_theorem (exits : String → Int) (catalog : List (String × Template))
    (name : String) (tmpl : Template) (dest : FS) (ctx : Ctx)
    (hlook : lookupAssoc catalog name = some tmpl) (hex : dest.destExists = true)
    (hne : dest.files ≠ []) :
    create_project exits catalog name dest ctx false =
      Except.error (CPError.destinationConflict, dest) :=
  create_project_conflict exits catalog name tmpl dest ctx hlook hex

/-- Claim C4 witness: the theorem applied at a concrete non-empty existing
destination. -/
theorem claim4_witness :
    destC4.files ≠ [] ∧
    create_project exitsZero demoCatalog tName destC4 ctxDemo false =
      Except.error (CPError.destinationConflict, destC4) :=
  ⟨by decide, claim4_theorem exitsZero demoCatalog tName demoTemplate destC4 ctxDemo rfl rfl
    (by decide)⟩

/-- Claim C7 (confirmed): a template name absent from the catalog makes
create_project fail with the template-not-found error before any work: the
error carries the destination exactly as given, so no directory is created
and no file is written or modified. -/
theorem claim7_theorem (exits : String → Int) (catalog : List (String × Template))
    (name : String) (dest : FS) (ctx : Ctx) (overwrite : Bool)
    (hlook : lookupAssoc catalog name = none) :
    create_project exits catalog name dest ctx overwrite =
      Except.error (CPError.templateNotFound name, dest) := by
  simp [create_project, hlook]

/-- Claim C7 witness: the theorem applied at a concrete absent name. -/
theorem claim7_witness :
    create_project exitsZero demoCatalog badName emptyDest ctxDemo false =
      Except.error (CPError.templateNotFound badName, emptyDest) :=
  claim7_theorem exitsZero demoCatalog badName emptyDest ctxDemo false rfl

/-- Claim C8 (confirmed): the exit statuses of post-create commands are
ignored by create_project: whenever the call succeeds under one exit-status
oracle it succeeds with the identical final state under any other (in
particular one where every command fails), and the command loop never
changes the modeled filesystem state, so no prior directory or file is
reverted. -/
theorem claim8_theorem :
    (∀ (e1 e2 : String → Int) (catalog : List (String × Template)) (name : String)
      (dest : FS) (ctx : Ctx) (overwrite : Bool) (st : FS),
      create_project e1 catalog name dest ctx overwrite = Except.ok st →
      create_project e2 catalog name dest ctx overwrite = Except.ok st) ∧
    (∀ (exits : String → Int) (ctx : Ctx) (cs : List String) (s r : FS),
      runCommands exits ctx cs s = Except.ok r → r = s) := by
  constructor
  · intro e1 e2 catalog name dest ctx overwrite st h
    rw [create_project_exits_irrel e2 e1 catalog name dest ctx overwrite]
    exact h
  · intro exits ctx cs s r hr
    exact runCommands_state exits ctx cs s r hr

/-- Claim C8 witness: a concrete template whose single post-create command
fails (exit status one everywhere) still returns success with all files in
place, via the theorem applied to the all-zero run; and the command loop
returns its input state. -/
theorem claim8_witness :
    create_project exitsOne demoCatalog tName emptyDest ctxDemo false = Except.ok finDemo ∧
    finDemo = finDemo :=
  ⟨claim8_theorem.1 exitsZero exitsOne demoCatalog tName emptyDest ctxDemo false finDemo rfl,
   claim8_theorem.2 exitsOne ctxDemo [cmdStr] finDemo finDemo rfl⟩

/-- Claim C2 (confirmed): when the run reaches file materialization and some
entry of the files list fails (for example its content fails to render),
create_project aborts with that error, and the state it aborts with is
exactly the state accumulated after the entries before the failing one: all
files written earlier keep their already-written contents and nothing is
rolled back. -/
theorem claim2_theorem (exits : String → Int) (catalog : List (String × Template))
    (name : String) (tmpl : Template) (dest : FS) (ctx : Ctx) (overwrite : Bool)
    (st1 st2 stMid : FS) (done rest : List FileEntry) (bad : FileEntry)
    (err : CPError × FS)
    (hlook : lookupAssoc catalog name = some tmpl)
    (hdest : checkDest dest overwrite = Except.ok st1)
    (hdirs : processDirs ctx tmpl.config.directories st1 = Except.ok st2)
    (hfiles : tmpl.config.files = done ++ bad :: rest)
    (hdone : processFiles ctx tmpl.templateFiles done st2 = Except.ok stMid)
    (hbad : processFile ctx tmpl.templateFiles bad stMid = Except.error err) :
    create_project exits catalog name dest ctx overwrite =
      Except.error (err.1, stMid) := by
  obtain ⟨e, failSt⟩ := err
  have hpres : failSt = stMid :=
    processFile_error_state ctx tmpl.templateFiles bad stMid e failSt hbad
  subst hpres
  simp only [create_project, hlook, createFromTemplate, hdest, hdirs, hfiles]
  rw [processFiles_append]
  rw [hdone]
  simp only [processFiles, hbad]

/-- Claim C2 witness: a concrete two-file template whose second file's
content is an unclosed placeholder; the call aborts with the rendering
error while the first file's rendered contents remain in the aborted
state. -/
theorem claim2_witness :
    create_project exitsZero failCatalog tName emptyDest ctxX1 false =
      Except.error (CPError.renderFailure Rfail.badTemplate, stMid2) :=
  claim2_theorem exitsZero failCatalog tName failTemplate emptyDest ctxX1 false
    { destExists := true } { destExists := true } stMid2 [specA] [] specB
    (CPError.renderFailure Rfail.badTemplate, stMid2) rfl rfl rfl rfl rfl rfl

/-- Claim C3 (corrected): for a repository whose children are valid
templates (directory, mapping manifest with a name) or invalid ones
(missing manifest, unparsable manifest, or mapping manifest without a name),
discovery succeeds and the catalog lists exactly the names of the valid
children, provided those names are pairwise distinct: a duplicated name
collapses into one catalog entry (see the counterexample), so the count of
entries equals the count of valid children only under distinctness.  No
invalid child prevents discovery of the valid ones. -/
theorem claim3_theorem (entries : List TemplateDir)
    (hnm : ∀ e ∈ entries, e.isDir = true → e.manifest ≠ Manifest.nonMapping)
    (hnd : (validNames entries).Nodup) :
    discover_templates entries = Except.ok (validPairs entries) ∧
    list_templates (validPairs entries) = validNames entries := by
  constructor
  · have h := discoverAux_ok entries [] hnm hnd (by intro n hn; simp [keysOf])
    simpa [discover_templates] using h
  · exact keysOf_validPairs entries

/-- Claim C3 counterexample: two valid template directories carrying the
same manifest name; both are valid in the claim's sense (N equals two), yet
the catalog ends with a single entry, so list_templates does not return
exactly N entries. -/
theorem claim3_counterexample :
    discover_templates dupEntries = Except.ok [(strA, dirTwo)] ∧
    (validNames dupEntries).length = 2 ∧
    (list_templates [(strA, dirTwo)]).length = 1 :=
  ⟨rfl, rfl, rfl⟩

/-- Claim C3 witness: the amended theorem applied to a concrete repository
with two valid children of distinct names, three invalid children and one
non-directory child. -/
theorem claim3_witness :
    discover_templates wEntries = Except.ok (validPairs wEntries) ∧
    list_templates (validPairs wEntries) = validNames wEntries :=
  claim3_theorem wEntries (by decide) (by decide)

/-- Claim C5 (corrected): the renderer substitutes every placeholder whose
key is bound in the context with that key's value, and on input containing
no placeholder markup at all (no opening jinja2 delimiter anywhere in the
text) and no newline-class character it returns the input unchanged, for
any context.  Identity does not extend to newline-terminated input: jinja2
strips one trailing newline sequence from every template
(keep_trailing_newline defaults to false), see the counterexample. -/
theorem claim5_theorem :
    render tplXY ctxXY = Except.ok resAB ∧
    (∀ (s : String) (ctx : Ctx), delimFree s.data = true →
      (∀ c ∈ s.data, isNlChar c = false) → render s ctx = Except.ok s) := by
  constructor
  · rfl
  · intro s ctx h hnl
    have hdrop : dropTrailNl s.data = s.data := dropTrailNl_nlFree s.data hnl
    simp [render, hdrop, renderLoop_text ctx s.data h, strMk_data]

/-- Claim C5 counterexample: a placeholder-free input string ending in a
newline is not returned unchanged: the renderer strips the trailing
newline, so the identity half of the claim fails on this input. -/
theorem claim5_counterexample :
    delimFree noVarsNl.data = true ∧
    render noVarsNl ctxXY = Except.ok noVarsStr ∧
    ¬ (noVarsStr = noVarsNl) :=
  ⟨rfl, rfl, by decide⟩

/-- Claim C5 witness: the identity half of the amended theorem applied to a
concrete placeholder-free, newline-free string under a nonempty context. -/
theorem claim5_witness :
    delimFree noVarsStr.data = true ∧ (∀ c ∈ noVarsStr.data, isNlChar c = false) ∧
    render noVarsStr ctxXY = Except.ok noVarsStr :=
  ⟨rfl, by decide, claim5_theorem.2 noVarsStr ctxXY rfl (by decide)⟩

/-- Claim C6 (corrected): the variable set reported for a template is
exactly the set of placeholder names occurring in the scanned content of
its dictionary file specs, each mapped to the empty default, where the
scanned content is the referenced template file's text whenever the
template reference is truthy and the file exists, and the inline content
(defaulted to empty) otherwise — the opposite priority of materialization,
see the counterexample; directories and post-create command strings are
never inspected. -/
theorem claim6_theorem (catalog : List (String × Template)) (name : String) (t : Template)
    (hlook : lookupAssoc catalog name = some t) :
    (∀ v : String,
      (∃ d, (v, d) ∈ get_template_variables catalog name) ↔
        ∃ f : FileSpec, FileEntry.spec f ∈ t.config.files ∧
          v ∈ extractVars (scannedContent t.templateFiles f)) ∧
    (∀ v d, (v, d) ∈ get_template_variables catalog name → d = emptyS) ∧
    (∀ (c : Config) (tf : List (String × String)) (ds pcs : List String),
      templateVariables ⟨⟨ds, c.files, pcs⟩, tf⟩ = templateVariables ⟨c, tf⟩) := by
  have hg : get_template_variables catalog name = templateVariables t := by
    simp [get_template_variables, hlook]
  refine ⟨?_, ?_, ?_⟩
  · intro v
    rw [hg]
    unfold templateVariables
    constructor
    · rintro ⟨d, hd⟩
      rcases List.mem_map.mp hd with ⟨w, hw, he⟩
      have hwv : w = v := by
        have := congrArg Prod.fst he
        simpa using this
      subst hwv
      have hmem := (mem_dedupAux w (allVars t) []).mp hw
      exact (mem_allVars t w).mp hmem.1
    · intro hex
      have hv : v ∈ allVars t := (mem_allVars t v).mpr hex
      have hmem : v ∈ dedupAux [] (allVars t) :=
        (mem_dedupAux v (allVars t) []).mpr ⟨hv, by simp⟩
      exact ⟨emptyS, List.mem_map_of_mem _ hmem⟩
  · intro v d hvd
    rw [hg] at hvd
    rcases List.mem_map.mp hvd with ⟨w, hw, he⟩
    have := congrArg Prod.snd he
    simpa using this.symm
  · intro c tf ds pcs
    rfl

/-- Claim C6 counterexample: a file spec carrying both inline content with
placeholder a and a template reference to an existing file with placeholder
b.  The specification's effective content (inline first) contains exactly a,
but get_template_variables returns exactly b, refuting the claim as
stated. -/
theorem claim6_counterexample :
    get_template_variables dualCatalog tVarsName = [(strB, emptyS)] ∧
    extractVars (specEffectiveContent dualTemplate.templateFiles dualSpec) = [strA] ∧
    ¬ ((strA, emptyS) ∈ get_template_variables dualCatalog tVarsName) :=
  ⟨rfl, rfl, by decide⟩

/-- Claim C6 witness: the amended theorem applied at the concrete dual
catalog, extracting the membership of b and the b-only direction. -/
theorem claim6_witness :
    (∃ d, (strB, d) ∈ get_template_variables dualCatalog tVarsName) ↔
      ∃ f : FileSpec, FileEntry.spec f ∈ dualTemplate.config.files ∧
        strB ∈ extractVars (scannedContent dualTemplate.templateFiles f) :=
  (claim6_theorem dualCatalog tVarsName dualTemplate rfl).1 strB

/-- Claim C9 (corrected): a file spec with neither a usable path nor a
usable source (both absent or empty) is skipped as that single entry only:
materialization behaves exactly as if the entry were not in the files list,
so the remaining file specs are still materialized and the operation
succeeds whenever it would succeed without the entry.  A spec lacking only
the path key is not skipped: the source falls back to its source key (see
the counterexample). -/
theorem claim9_theorem (exits : String → Int) (ds : List String)
    (before after : List FileEntry) (sp : FileSpec) (pcs : List String)
    (tf : List (String × String)) (dest : FS) (ctx : Ctx) (overwrite : Bool)
    (h : pathOrSource sp = none) :
    createFromTemplate exits ⟨⟨ds, before ++ FileEntry.spec sp :: after, pcs⟩, tf⟩
        dest ctx overwrite =
      createFromTemplate exits ⟨⟨ds, before ++ after, pcs⟩, tf⟩ dest ctx overwrite := by
  simp only [createFromTemplate]
  cases h1 : checkDest dest overwrite with
  | error e => rfl
  | ok st1 =>
    simp only []
    cases h2 : processDirs ctx ds st1 with
    | error e => rfl
    | ok st2 =>
      simp only []
      have hfiles : processFiles ctx tf (before ++ FileEntry.spec sp :: after) st2 =
          processFiles ctx tf (before ++ after) st2 := by
        rw [processFiles_append, processFiles_append]
        cases hb : processFiles ctx tf before st2 with
        | error e => rfl
        | ok stm =>
          simp only []
          show processFiles ctx tf (FileEntry.spec sp :: after) stm = _
          simp only [processFiles, processFile_skip ctx tf sp stm h]
      rw [hfiles]

/-- Claim C9 counterexample: a file spec whose path key is absent but whose
source key names a destination; create_project succeeds and the spec does
produce a file, refuting that a spec lacking path produces no file. -/
theorem claim9_counterexample :
    srcOnlySpec.path = none ∧
    create_project exitsZero srcCatalog tName emptyDest [] false =
      Except.ok { destExists := true, dirs := [], files := [(pathA, hiStr)] } :=
  ⟨rfl, rfl⟩

/-- Claim C9 witness: the amended theorem applied at a concrete template
where the entry with neither path nor source sits after a normal file
spec. -/
theorem claim9_witness :
    createFromTemplate exitsZero ⟨⟨[], [plainB, FileEntry.spec noPathSpec], []⟩, []⟩
        emptyDest [] false =
      createFromTemplate exitsZero ⟨⟨[], [plainB], []⟩, []⟩ emptyDest [] false :=
  claim9_theorem exitsZero [] [plainB] [] noPathSpec [] [] emptyDest [] false rfl

end Wrd
